import Mathlib

/-!
Verification development for a browser-extension content script that adds
vim-style keyboard navigation to a search-results page.  Two source variants
exist: a clamped variant (content.js) and a wrap variant (part_000).  The
DOM is shallowly embedded: page elements become an `Elem` structure, the
highlight marker becomes an explicit list of currently-marked elements,
JavaScript array indexing `xs[i]` (undefined out of range) becomes an
`Option`-returning lookup with an `Int` index, and JavaScript `%` (sign of
the dividend) becomes `Int.tmod`.  The wrap variant applies `%` only under a
non-empty result list in the properties below; the JavaScript NaN produced
by `% 0` on an empty list is outside the modelled domain.
-/

namespace GoogleShortcuts

/-- A page element, as far as the script observes it: an identity, a tag
name, whether it carries a `lang` attribute, and the `href` of its first
anchor descendant (`querySelector("a")`), if any. -/
structure Elem where
  eid : Nat
  tag : String
  hasLang : Bool
  link : Option String
deriving DecidableEq, Repr

/-- content.js `clamp(value, min, max) = Math.max(min, Math.min(value, max))`. -/
def clamp (value mn mx : Int) : Int := max mn (min value mx)

/-- JavaScript array indexing `xs[i]` with an integer index: `undefined`
(here `none`) when `i < 0` or `i ≥ xs.length`. -/
def getAt (l : List Elem) (i : Int) : Option Elem :=
  if i < 0 then none else l[i.toNat]?

/-- The mutable script state (content.js): the extracted result elements,
the selection cursor, the `lastGKeyPress` timestamp, and the list of
elements currently carrying the `gscss-highlight` marker (the DOM write
surface, `document.querySelectorAll(".gscss-highlight")` in document
order).  The wrap variant has no `lastGKeyPress`; the field is unused
there. -/
structure FullState where
  searchResults : List Elem
  selectedIndex : Int
  lastGKeyPress : Int
  marked : List Elem
deriving DecidableEq, Repr

/-- A keyboard event, restricted to the fields the handlers read. -/
structure KeyEvent where
  key : String
  shiftKey : Bool
  metaKey : Bool
  ctrlKey : Bool
deriving DecidableEq, Repr

/-- The navigation side effect of the activation branch:
`window.open(href, "_blank")` or `window.location.href = href`, or none. -/
inductive NavAction where
  | noNav
  | openNewTab (href : String)
  | navigate (href : String)
deriving DecidableEq, Repr

/-- content.js `highlightSelected`, restricted to its marker effect (the
scrolling calls touch no modelled state).  Returns the new marked list and
whether any class was removed or added.  Early-returns leaving the markers
untouched when the result list is empty or the indexed element is
undefined; no-ops when exactly one element is marked and it is the target;
otherwise strips every marker and applies the marker to the target. -/
def highlightSelected (results : List Elem) (selectedIndex : Int)
    (marked : List Elem) : List Elem × Bool :=
  if results.length = 0 then (marked, false)
  else
    match getAt results selectedIndex with
    | none => (marked, false)
    | some element =>
      if marked.length = 1 ∧ marked[0]? = some element then (marked, false)
      else ([element], true)

/-- part_000 `highlightSelected`: identical marker logic but without the
leading empty-list early return (the undefined-element check covers it). -/
def highlightSelectedWrap (results : List Elem) (selectedIndex : Int)
    (marked : List Elem) : List Elem × Bool :=
  match getAt results selectedIndex with
  | none => (marked, false)
  | some element =>
    if marked.length = 1 ∧ marked[0]? = some element then (marked, false)
    else ([element], true)

/-- content.js `handleKeyDown` (clamped variant).  `activeElementName` is
`document.activeElement.tagName` (or `""`), `now` is `Date.now()` at the
moment of the event.  Returns the updated state and the navigation side
effect. -/
def handleKeyDown (activeElementName : String) (now : Int) (ev : KeyEvent)
    (st : FullState) : FullState × NavAction :=
  if activeElementName = "INPUT" ∨ activeElementName = "TEXTAREA" then
    (st, .noNav)
  else if ev.key = "j" ∨ ev.key = "ArrowDown" then
    let idx := clamp (st.selectedIndex + 1) 0 ((st.searchResults.length : Int) - 1)
    let m := (highlightSelected st.searchResults idx st.marked).1
    ({ st with selectedIndex := idx, marked := m }, .noNav)
  else if ev.key = "k" ∨ ev.key = "ArrowUp" then
    let idx := clamp (st.selectedIndex - 1) 0 ((st.searchResults.length : Int) - 1)
    let m := (highlightSelected st.searchResults idx st.marked).1
    ({ st with selectedIndex := idx, marked := m }, .noNav)
  else if ev.key = " " ∨ ev.key = "Enter" then
    match getAt st.searchResults st.selectedIndex with
    | none => (st, .noNav)
    | some element =>
      match element.link with
      | none => (st, .noNav)
      | some href =>
        if ev.metaKey then (st, .openNewTab href) else (st, .navigate href)
  else if ev.key = "G" ∨ ev.key = "g" then
    if ev.metaKey ∨ ev.ctrlKey then (st, .noNav)
    else if ev.shiftKey then
      let idx := (st.searchResults.length : Int) - 1
      let m := (highlightSelected st.searchResults idx st.marked).1
      ({ st with selectedIndex := idx, marked := m }, .noNav)
    else if st.lastGKeyPress + 1000 > now then
      let m := (highlightSelected st.searchResults 0 st.marked).1
      ({ st with selectedIndex := 0, marked := m }, .noNav)
    else ({ st with lastGKeyPress := now }, .noNav)
  else (st, .noNav)

/-- part_000 `handleKeyDown` (wrap variant): `j`/`ArrowDown` and
`k`/`ArrowUp` move modulo the list length (JavaScript `%`, i.e.
`Int.tmod`); there is no `g`/`G` binding. -/
def handleKeyDownWrap (activeElementName : String) (ev : KeyEvent)
    (st : FullState) : FullState × NavAction :=
  if activeElementName = "INPUT" ∨ activeElementName = "TEXTAREA" then
    (st, .noNav)
  else if ev.key = "j" ∨ ev.key = "ArrowDown" then
    let idx := (st.selectedIndex + 1).tmod (st.searchResults.length : Int)
    let m := (highlightSelectedWrap st.searchResults idx st.marked).1
    ({ st with selectedIndex := idx, marked := m }, .noNav)
  else if ev.key = "k" ∨ ev.key = "ArrowUp" then
    let idx := (st.selectedIndex - 1 + (st.searchResults.length : Int)).tmod
      (st.searchResults.length : Int)
    let m := (highlightSelectedWrap st.searchResults idx st.marked).1
    ({ st with selectedIndex := idx, marked := m }, .noNav)
  else if ev.key = " " ∨ ev.key = "Enter" then
    match getAt st.searchResults st.selectedIndex with
    | none => (st, .noNav)
    | some element =>
      match element.link with
      | none => (st, .noNav)
      | some href =>
        if ev.metaKey then (st, .openNewTab href) else (st, .navigate href)
  else (st, .noNav)

/-- content.js `handleSearchResultsChanged` (refined variant):
`shouldHighlight` is computed from the pre-refresh list length and the
cursor, the result list is replaced, and `highlightSelected` runs only when
the flag is set.  The returned `Bool` records whether the highlight was
recomputed. -/
def handleSearchResultsChanged (newResults : List Elem) (st : FullState) :
    FullState × Bool :=
  if (st.searchResults.length : Int) ≤ st.selectedIndex then
    ({ st with
        searchResults := newResults,
        marked := (highlightSelected newResults st.selectedIndex st.marked).1 },
      true)
  else ({ st with searchResults := newResults }, false)

/-- part_000 `handleSearchResultsChanged` (simple variant): replace the
result list and always re-run the highlight. -/
def handleSearchResultsChangedWrap (newResults : List Elem)
    (st : FullState) : FullState :=
  let m := (highlightSelectedWrap newResults st.selectedIndex st.marked).1
  { st with searchResults := newResults, marked := m }

/-- A heading found by `querySelectorAll("h3")` together with its chain of
proper ancestors, from its parent up to the document root (the last list
entry is the root, whose `parentElement` is `null`). -/
structure Heading where
  self : Elem
  ancestors : List Elem
deriving DecidableEq, Repr

/-- The `while` loop of `extractSearchResults`: starting at the heading,
walk up while the current element has no `lang` attribute; when the parent
is `null` the loop breaks (after a logged error) at the current element,
i.e. at the root. -/
def findHighestParent (cur : Elem) : List Elem → Elem
  | [] => cur
  | p :: rest => if cur.hasLang then cur else findHighestParent p rest

/-- Both variants' `extractSearchResults`: for each heading in document
order, run the ancestor walk and keep the resulting element only when its
tag is `DIV`. -/
def extractSearchResults (headings : List Heading) : List Elem :=
  headings.filterMap fun h =>
    let hp := findHighestParent h.self h.ancestors
    if hp.tag = "DIV" then some hp else none

/-- The nearest element on the chain (heading first, then ancestors
upward) that carries a `lang` attribute, if any. -/
def findLangElem (cur : Elem) : List Elem → Option Elem
  | [] => if cur.hasLang then some cur else none
  | p :: rest => if cur.hasLang then some cur else findLangElem p rest

/-- The extractor as the specification describes it: for each heading, the
nearest chain element with a `lang` attribute, kept only when its tag is
`DIV`; a heading with no `lang`-carrying element on its chain is skipped
outright. -/
def extractSearchResultsSpec (headings : List Heading) : List Elem :=
  headings.filterMap fun h =>
    match findLangElem h.self h.ancestors with
    | none => none
    | some hp => if hp.tag = "DIV" then some hp else none

/-- The extractor as amended: when no chain element carries a `lang`
attribute, the walk stops at the root (the last chain element, the heading
itself when it has no ancestors), and that root is still subject to the
`DIV`-tag filter rather than being skipped unconditionally. -/
def extractSearchResultsAmended (headings : List Heading) : List Elem :=
  headings.filterMap fun h =>
    let hp := (findLangElem h.self h.ancestors).getD (h.ancestors.getLastD h.self)
    if hp.tag = "DIV" then some hp else none

/-- Keys driving the `next`/`prev` operations in both variants. -/
def isNextPrevKey (k : String) : Prop :=
  k = "j" ∨ k = "ArrowDown" ∨ k = "k" ∨ k = "ArrowUp"

instance (k : String) : Decidable (isNextPrevKey k) := by
  unfold isNextPrevKey; infer_instance

/-- Run a sequence of key events through the clamped handler; each event
comes with the active element's tag name and the current time. -/
def runKeys (evs : List (String × Int × KeyEvent)) (st : FullState) :
    FullState :=
  evs.foldl (fun s e => (handleKeyDown e.1 e.2.1 e.2.2 s).1) st

/-- Run a sequence of key events through the wrap handler; each event
comes with the active element's tag name. -/
def runKeysWrap (evs : List (String × KeyEvent)) (st : FullState) :
    FullState :=
  evs.foldl (fun s e => (handleKeyDownWrap e.1 e.2 s).1) st

/-- A plain result element used in concrete witnesses. -/
def el (n : Nat) : Elem := ⟨n, "DIV", true, some "https://example.org"⟩

/-! ## Helper lemmas -/

theorem clamp_nonneg (v mx : Int) : 0 ≤ clamp v 0 mx := le_max_left 0 _

theorem clamp_le (v mx : Int) (h : 0 ≤ mx) : clamp v 0 mx ≤ mx := by
  unfold clamp
  exact max_le h (min_le_right v mx)

theorem getAt_eq_none_of_length_le {l : List Elem} {idx : Int}
    (h : (l.length : Int) ≤ idx) : getAt l idx = none := by
  unfold getAt
  have h0 : ¬ idx < 0 := by omega
  rw [if_neg h0]
  apply List.getElem?_eq_none
  omega

theorem highlightSelected_getAt_none {results marked : List Elem} {idx : Int}
    (h : getAt results idx = none) :
    highlightSelected results idx marked = (marked, false) := by
  unfold highlightSelected
  split
  · rfl
  · rw [h]

theorem highlightSelectedWrap_getAt_none {results marked : List Elem}
    {idx : Int} (h : getAt results idx = none) :
    highlightSelectedWrap results idx marked = (marked, false) := by
  unfold highlightSelectedWrap
  rw [h]

theorem marked_cond_iff (marked : List Elem) (e : Elem) :
    (marked.length = 1 ∧ marked[0]? = some e) ↔ marked = [e] := by
  constructor
  · rintro ⟨h1, h2⟩
    match marked, h1 with
    | [x], _ => simpa using h2
  · rintro rfl
    simp

theorem handleKeyDown_searchResults (a : String) (t : Int) (e : KeyEvent)
    (s : FullState) :
    ((handleKeyDown a t e s).1).searchResults = s.searchResults := by
  unfold handleKeyDown
  repeat' split
  all_goals rfl

theorem handleKeyDownWrap_searchResults (a : String) (e : KeyEvent)
    (s : FullState) :
    ((handleKeyDownWrap a e s).1).searchResults = s.searchResults := by
  unfold handleKeyDownWrap
  repeat' split
  all_goals rfl

theorem handleKeyDown_index_range (a : String) (t : Int) (e : KeyEvent)
    (s : FullState) (hne : s.searchResults ≠ [])
    (h0 : 0 ≤ s.selectedIndex)
    (h1 : s.selectedIndex < (s.searchResults.length : Int)) :
    0 ≤ ((handleKeyDown a t e s).1).selectedIndex ∧
      ((handleKeyDown a t e s).1).selectedIndex <
        (s.searchResults.length : Int) := by
  have hpos : 0 < (s.searchResults.length : Int) := by
    have := List.length_pos.mpr hne
    omega
  unfold handleKeyDown
  repeat' split
  all_goals simp only []
  all_goals first
    | exact ⟨h0, h1⟩
    | (constructor
       · exact clamp_nonneg _ _
       · have := clamp_le (s.selectedIndex + 1) ((s.searchResults.length : Int) - 1) (by omega)
         omega)
    | (constructor
       · exact clamp_nonneg _ _
       · have := clamp_le (s.selectedIndex - 1) ((s.searchResults.length : Int) - 1) (by omega)
         omega)
    | omega

theorem clamp_of_max_neg (v mx : Int) (h : mx < 0) : clamp v 0 mx = 0 :=
  max_eq_left (le_trans (min_le_right v mx) (by omega))

theorem highlightSelected_nil (idx : Int) (marked : List Elem) :
    highlightSelected [] idx marked = (marked, false) := rfl

theorem getAt_nil (idx : Int) : getAt [] idx = none := by
  unfold getAt
  split <;> rfl

theorem handleKeyDown_j_eval (a : String) (t : Int) (ev : KeyEvent)
    (st : FullState) (hname : ¬(a = "INPUT" ∨ a = "TEXTAREA"))
    (hk : ev.key = "j" ∨ ev.key = "ArrowDown") :
    handleKeyDown a t ev st =
      ({ st with
          selectedIndex :=
            clamp (st.selectedIndex + 1) 0 ((st.searchResults.length : Int) - 1),
          marked := (highlightSelected st.searchResults
            (clamp (st.selectedIndex + 1) 0 ((st.searchResults.length : Int) - 1))
            st.marked).1 },
        .noNav) := by
  unfold handleKeyDown
  rw [if_neg hname, if_pos hk]

theorem handleKeyDown_k_eval (a : String) (t : Int) (ev : KeyEvent)
    (st : FullState) (hname : ¬(a = "INPUT" ∨ a = "TEXTAREA"))
    (hk : ev.key = "k" ∨ ev.key = "ArrowUp") :
    handleKeyDown a t ev st =
      ({ st with
          selectedIndex :=
            clamp (st.selectedIndex - 1) 0 ((st.searchResults.length : Int) - 1),
          marked := (highlightSelected st.searchResults
            (clamp (st.selectedIndex - 1) 0 ((st.searchResults.length : Int) - 1))
            st.marked).1 },
        .noNav) := by
  have hj : ¬(ev.key = "j" ∨ ev.key = "ArrowDown") := by
    rcases hk with h | h <;> rw [h] <;> decide
  unfold handleKeyDown
  rw [if_neg hname, if_neg hj, if_pos hk]

theorem handleKeyDown_g_arm (a : String) (t : Int) (st : FullState)
    (hname : ¬(a = "INPUT" ∨ a = "TEXTAREA"))
    (harm : ¬ st.lastGKeyPress + 1000 > t) :
    handleKeyDown a t ⟨"g", false, false, false⟩ st =
      ({ st with lastGKeyPress := t }, .noNav) := by
  unfold handleKeyDown
  rw [if_neg hname, if_neg (by decide), if_neg (by decide), if_neg (by decide),
    if_pos (by decide), if_neg (by decide), if_neg (by decide), if_neg harm]

theorem handleKeyDown_g_jump (a : String) (t : Int) (st : FullState)
    (hname : ¬(a = "INPUT" ∨ a = "TEXTAREA"))
    (harm : st.lastGKeyPress + 1000 > t) :
    handleKeyDown a t ⟨"g", false, false, false⟩ st =
      ({ st with
          selectedIndex := 0,
          marked := (highlightSelected st.searchResults 0 st.marked).1 },
        .noNav) := by
  unfold handleKeyDown
  rw [if_neg hname, if_neg (by decide), if_neg (by decide), if_neg (by decide),
    if_pos (by decide), if_neg (by decide), if_neg (by decide), if_pos harm]

theorem handleKeyDown_G_shift (a : String) (t : Int) (st : FullState)
    (hname : ¬(a = "INPUT" ∨ a = "TEXTAREA")) :
    handleKeyDown a t ⟨"G", true, false, false⟩ st =
      ({ st with
          selectedIndex := (st.searchResults.length : Int) - 1,
          marked := (highlightSelected st.searchResults
            ((st.searchResults.length : Int) - 1) st.marked).1 },
        .noNav) := by
  unfold handleKeyDown
  rw [if_neg hname, if_neg (by decide), if_neg (by decide), if_neg (by decide),
    if_pos (by decide), if_neg (by decide), if_pos (by decide)]

theorem handleKeyDownWrap_index_range (a : String) (e : KeyEvent)
    (s : FullState) (hne : s.searchResults ≠ [])
    (h0 : 0 ≤ s.selectedIndex)
    (h1 : s.selectedIndex < (s.searchResults.length : Int)) :
    0 ≤ ((handleKeyDownWrap a e s).1).selectedIndex ∧
      ((handleKeyDownWrap a e s).1).selectedIndex <
        (s.searchResults.length : Int) := by
  have hpos : 0 < (s.searchResults.length : Int) := by
    have := List.length_pos.mpr hne
    omega
  unfold handleKeyDownWrap
  repeat' split
  all_goals simp only []
  all_goals first
    | exact ⟨h0, h1⟩
    | (constructor
       · exact Int.tmod_nonneg _ (by omega)
       · exact Int.tmod_lt_of_pos _ hpos)

theorem runKeys_invariant (evs : List (String × Int × KeyEvent))
    (st : FullState) (hne : st.searchResults ≠ [])
    (h0 : 0 ≤ st.selectedIndex)
    (h1 : st.selectedIndex < (st.searchResults.length : Int)) :
    (runKeys evs st).searchResults = st.searchResults ∧
      0 ≤ (runKeys evs st).selectedIndex ∧
      (runKeys evs st).selectedIndex < (st.searchResults.length : Int) := by
  induction evs generalizing st with
  | nil => exact ⟨rfl, h0, h1⟩
  | cons e rest ih =>
    have hres := handleKeyDown_searchResults e.1 e.2.1 e.2.2 st
    have hrange := handleKeyDown_index_range e.1 e.2.1 e.2.2 st hne h0 h1
    have step := ih ((handleKeyDown e.1 e.2.1 e.2.2 st).1)
      (by rw [hres]; exact hne) hrange.1 (by rw [hres]; exact hrange.2)
    have hfold : runKeys (e :: rest) st =
        runKeys rest ((handleKeyDown e.1 e.2.1 e.2.2 st).1) := rfl
    rw [hfold]
    refine ⟨?_, step.2.1, ?_⟩
    · rw [step.1, hres]
    · rw [hres] at step
      exact step.2.2

theorem runKeysWrap_invariant (evs : List (String × KeyEvent))
    (st : FullState) (hne : st.searchResults ≠ [])
    (h0 : 0 ≤ st.selectedIndex)
    (h1 : st.selectedIndex < (st.searchResults.length : Int)) :
    (runKeysWrap evs st).searchResults = st.searchResults ∧
      0 ≤ (runKeysWrap evs st).selectedIndex ∧
      (runKeysWrap evs st).selectedIndex < (st.searchResults.length : Int) := by
  induction evs generalizing st with
  | nil => exact ⟨rfl, h0, h1⟩
  | cons e rest ih =>
    have hres := handleKeyDownWrap_searchResults e.1 e.2 st
    have hrange := handleKeyDownWrap_index_range e.1 e.2 st hne h0 h1
    have step := ih ((handleKeyDownWrap e.1 e.2 st).1)
      (by rw [hres]; exact hne) hrange.1 (by rw [hres]; exact hrange.2)
    have hfold : runKeysWrap (e :: rest) st =
        runKeysWrap rest ((handleKeyDownWrap e.1 e.2 st).1) := rfl
    rw [hfold]
    refine ⟨?_, step.2.1, ?_⟩
    · rw [step.1, hres]
    · rw [hres] at step
      exact step.2.2

/-! ## Claim theorems -/

/-- C1: for every non-empty result list, after any sequence of next/prev
key operations (j/ArrowDown, k/ArrowUp) starting from an in-range
selectedIndex, the invariant 0 ≤ selectedIndex < results.length holds: the
clamped variant (content.js) saturates at the bounds and the wrap variant
(part_000) wraps modulo the length into range. -/
theorem c1_next_prev_invariant
    (evs : List (String × Int × KeyEvent)) (evsW : List (String × KeyEvent))
    (st stW : FullState)
    (hne : st.searchResults ≠ []) (hneW : stW.searchResults ≠ [])
    (h0 : 0 ≤ st.selectedIndex)
    (h1 : st.selectedIndex < (st.searchResults.length : Int))
    (h0W : 0 ≤ stW.selectedIndex)
    (h1W : stW.selectedIndex < (stW.searchResults.length : Int))
    (hkeys : ∀ p ∈ evs, isNextPrevKey p.2.2.key)
    (hkeysW : ∀ p ∈ evsW, isNextPrevKey p.2.key) :
    (0 ≤ (runKeys evs st).selectedIndex ∧
      (runKeys evs st).selectedIndex <
        ((runKeys evs st).searchResults.length : Int)) ∧
    (0 ≤ (runKeysWrap evsW stW).selectedIndex ∧
      (runKeysWrap evsW stW).selectedIndex <
        ((runKeysWrap evsW stW).searchResults.length : Int)) := by
  have h := runKeys_invariant evs st hne h0 h1
  have hW := runKeysWrap_invariant evsW stW hneW h0W h1W
  constructor
  · refine ⟨h.2.1, ?_⟩
    rw [h.1]
    exact h.2.2
  · refine ⟨hW.2.1, ?_⟩
    rw [hW.1]
    exact hW.2.2

theorem c1_witness :
    ([el 0, el 1] : List Elem) ≠ [] ∧
    (0 ≤ (runKeys [("", 0, ⟨"j", false, false, false⟩),
        ("", 0, ⟨"k", false, false, false⟩),
        ("", 0, ⟨"k", false, false, false⟩)] ⟨[el 0, el 1], 0, 0, []⟩).selectedIndex ∧
      (runKeys [("", 0, ⟨"j", false, false, false⟩),
        ("", 0, ⟨"k", false, false, false⟩),
        ("", 0, ⟨"k", false, false, false⟩)] ⟨[el 0, el 1], 0, 0, []⟩).selectedIndex <
        (((runKeys [("", 0, ⟨"j", false, false, false⟩),
          ("", 0, ⟨"k", false, false, false⟩),
          ("", 0, ⟨"k", false, false, false⟩)]
            ⟨[el 0, el 1], 0, 0, []⟩).searchResults.length : Int))) ∧
    (0 ≤ (runKeysWrap [("", ⟨"ArrowDown", false, false, false⟩),
        ("", ⟨"ArrowDown", false, false, false⟩)] ⟨[el 0, el 1], 1, 0, []⟩).selectedIndex ∧
      (runKeysWrap [("", ⟨"ArrowDown", false, false, false⟩),
        ("", ⟨"ArrowDown", false, false, false⟩)] ⟨[el 0, el 1], 1, 0, []⟩).selectedIndex <
        (((runKeysWrap [("", ⟨"ArrowDown", false, false, false⟩),
          ("", ⟨"ArrowDown", false, false, false⟩)]
            ⟨[el 0, el 1], 1, 0, []⟩).searchResults.length : Int))) :=
  ⟨by decide,
    c1_next_prev_invariant
      [("", 0, ⟨"j", false, false, false⟩), ("", 0, ⟨"k", false, false, false⟩),
        ("", 0, ⟨"k", false, false, false⟩)]
      [("", ⟨"ArrowDown", false, false, false⟩), ("", ⟨"ArrowDown", false, false, false⟩)]
      ⟨[el 0, el 1], 0, 0, []⟩ ⟨[el 0, el 1], 1, 0, []⟩
      (by decide) (by decide) (by decide) (by decide) (by decide) (by decide)
      (by decide) (by decide)⟩

/-- C2: for a result list of 5 entries with selectedIndex = 4, a single
next operation (j) leaves selectedIndex at 4 in the clamped variant and
moves it to 0 in the wrap variant; the two variants' next operations are
not extensionally equal at the upper boundary. -/
theorem c2_boundary_next_disagrees :
    ((handleKeyDown "" 0 ⟨"j", false, false, false⟩
        ⟨[el 0, el 1, el 2, el 3, el 4], 4, 0, []⟩).1).selectedIndex = 4 ∧
    ((handleKeyDownWrap "" ⟨"j", false, false, false⟩
        ⟨[el 0, el 1, el 2, el 3, el 4], 4, 0, []⟩).1).selectedIndex = 0 ∧
    ((handleKeyDown "" 0 ⟨"j", false, false, false⟩
        ⟨[el 0, el 1, el 2, el 3, el 4], 4, 0, []⟩).1).selectedIndex ≠
      ((handleKeyDownWrap "" ⟨"j", false, false, false⟩
        ⟨[el 0, el 1, el 2, el 3, el 4], 4, 0, []⟩).1).selectedIndex := by
  refine ⟨?_, ?_, ?_⟩ <;> decide

/-- C9: in both variants, a mutation-driven refresh replaces the results
field but never modifies selectedIndex, for every prior state and every
extracted result list. -/
theorem c9_refresh_preserves_cursor (newResults : List Elem)
    (st : FullState) :
    ((handleSearchResultsChanged newResults st).1).searchResults = newResults ∧
    ((handleSearchResultsChanged newResults st).1).selectedIndex =
      st.selectedIndex ∧
    (handleSearchResultsChangedWrap newResults st).searchResults = newResults ∧
    (handleSearchResultsChangedWrap newResults st).selectedIndex =
      st.selectedIndex := by
  refine ⟨?_, ?_, rfl, rfl⟩ <;>
    · unfold handleSearchResultsChanged
      split <;> rfl

/-- C10: in the clamped variant, pressing next or prev while the result
list is empty always assigns selectedIndex = 0 regardless of its prior
value, and the highlight call returns without touching any marker. -/
theorem c10_empty_list_normalises (st : FullState) (a : String) (t : Int)
    (ev : KeyEvent) (hempty : st.searchResults = [])
    (hname : ¬(a = "INPUT" ∨ a = "TEXTAREA"))
    (hk : isNextPrevKey ev.key) :
    ((handleKeyDown a t ev st).1).selectedIndex = 0 ∧
    ((handleKeyDown a t ev st).1).marked = st.marked := by
  have hlen : (st.searchResults.length : Int) = 0 := by rw [hempty]; rfl
  have hclamp1 : clamp (st.selectedIndex + 1) 0 ((st.searchResults.length : Int) - 1) = 0 := by
    rw [hlen]
    exact clamp_of_max_neg _ _ (by omega)
  have hclamp2 : clamp (st.selectedIndex - 1) 0 ((st.searchResults.length : Int) - 1) = 0 := by
    rw [hlen]
    exact clamp_of_max_neg _ _ (by omega)
  have hhl : ∀ i : Int, (highlightSelected st.searchResults i st.marked).1 = st.marked := by
    intro i
    rw [hempty, highlightSelected_nil]
  rcases hk with h | h | h | h
  · rw [handleKeyDown_j_eval a t ev st hname (Or.inl h)]
    exact ⟨hclamp1, hhl _⟩
  · rw [handleKeyDown_j_eval a t ev st hname (Or.inr h)]
    exact ⟨hclamp1, hhl _⟩
  · rw [handleKeyDown_k_eval a t ev st hname (Or.inl h)]
    exact ⟨hclamp2, hhl _⟩
  · rw [handleKeyDown_k_eval a t ev st hname (Or.inr h)]
    exact ⟨hclamp2, hhl _⟩

theorem c10_witness :
    ((⟨[], 7, 0, [el 9]⟩ : FullState).searchResults = []) ∧
    ((handleKeyDown "BODY" 0 ⟨"j", false, false, false⟩
        ⟨[], 7, 0, [el 9]⟩).1).selectedIndex = 0 ∧
    ((handleKeyDown "BODY" 0 ⟨"j", false, false, false⟩
        ⟨[], 7, 0, [el 9]⟩).1).marked = ([el 9] : List Elem) :=
  ⟨rfl,
    c10_empty_list_normalises ⟨[], 7, 0, [el 9]⟩ "BODY" 0
      ⟨"j", false, false, false⟩ rfl (by decide) (Or.inl rfl)⟩

/-- C3: in the refined variant, a container refresh recomputes the
highlight iff the pre-refresh results.length was ≤ the current
selectedIndex; when selectedIndex was strictly within the old bounds no
re-highlight occurs and the marker list is untouched. -/
theorem c3_refresh_highlight_iff (newResults : List Elem) (st : FullState) :
    ((handleSearchResultsChanged newResults st).2 = true ↔
      (st.searchResults.length : Int) ≤ st.selectedIndex) ∧
    (st.selectedIndex < (st.searchResults.length : Int) →
      (handleSearchResultsChanged newResults st).2 = false ∧
      ((handleSearchResultsChanged newResults st).1).marked = st.marked) := by
  unfold handleSearchResultsChanged
  by_cases h : (st.searchResults.length : Int) ≤ st.selectedIndex
  · rw [if_pos h]
    exact ⟨⟨fun _ => h, fun _ => rfl⟩, fun hlt => absurd h (by omega)⟩
  · rw [if_neg h]
    exact ⟨⟨fun hf => absurd hf Bool.false_ne_true, fun hh => absurd hh h⟩,
      fun _ => ⟨rfl, rfl⟩⟩

theorem c3_witness :
    ((⟨[el 0], 0, 0, [el 0]⟩ : FullState).selectedIndex <
      (((⟨[el 0], 0, 0, [el 0]⟩ : FullState).searchResults.length : Int))) ∧
    (handleSearchResultsChanged [el 0, el 1, el 2] ⟨[el 0], 0, 0, [el 0]⟩).2 = false ∧
    ((handleSearchResultsChanged [el 0, el 1, el 2]
      ⟨[el 0], 0, 0, [el 0]⟩).1).marked = [el 0] :=
  ⟨by decide,
    (c3_refresh_highlight_iff [el 0, el 1, el 2] ⟨[el 0], 0, 0, [el 0]⟩).2
      (by decide)⟩

/-- C4: when selectedIndex points past the end of an empty or shrunk
result list, the highlight routine of both variants and the activation
branch (Enter/Space) of both handlers return without acting: no marker
change, no navigation, no state change. -/
theorem c4_out_of_range_safe (st : FullState) (a : String) (t : Int)
    (hidx : (st.searchResults.length : Int) ≤ st.selectedIndex) :
    highlightSelected st.searchResults st.selectedIndex st.marked =
      (st.marked, false) ∧
    highlightSelectedWrap st.searchResults st.selectedIndex st.marked =
      (st.marked, false) ∧
    handleKeyDown a t ⟨"Enter", false, false, false⟩ st = (st, .noNav) ∧
    handleKeyDown a t ⟨" ", false, false, false⟩ st = (st, .noNav) ∧
    handleKeyDownWrap a ⟨"Enter", false, false, false⟩ st = (st, .noNav) ∧
    handleKeyDownWrap a ⟨" ", false, false, false⟩ st = (st, .noNav) := by
  have hnone := getAt_eq_none_of_length_le hidx
  refine ⟨highlightSelected_getAt_none hnone,
    highlightSelectedWrap_getAt_none hnone, ?_, ?_, ?_, ?_⟩
  · unfold handleKeyDown
    split
    · rfl
    · rw [if_neg (by decide), if_neg (by decide), if_pos (by decide)]
      simp only [hnone]
  · unfold handleKeyDown
    split
    · rfl
    · rw [if_neg (by decide), if_neg (by decide), if_pos (by decide)]
      simp only [hnone]
  · unfold handleKeyDownWrap
    split
    · rfl
    · rw [if_neg (by decide), if_neg (by decide), if_pos (by decide)]
      simp only [hnone]
  · unfold handleKeyDownWrap
    split
    · rfl
    · rw [if_neg (by decide), if_neg (by decide), if_pos (by decide)]
      simp only [hnone]

theorem c4_witness :
    (((⟨[el 0, el 1], 4, 0, [el 1]⟩ : FullState).searchResults.length : Int) ≤
      (⟨[el 0, el 1], 4, 0, [el 1]⟩ : FullState).selectedIndex) ∧
    highlightSelected [el 0, el 1] 4 [el 1] = ([el 1], false) ∧
    handleKeyDown "BODY" 0 ⟨"Enter", false, false, false⟩
      ⟨[el 0, el 1], 4, 0, [el 1]⟩ = (⟨[el 0, el 1], 4, 0, [el 1]⟩, .noNav) :=
  have h := c4_out_of_range_safe ⟨[el 0, el 1], 4, 0, [el 1]⟩ "BODY" 0 (by decide)
  ⟨by decide, h.1, h.2.2.1⟩

/-- C5: shift-G (without meta/ctrl) sets selectedIndex to length-1; a lone
g press only records its timestamp and changes nothing else; a second g
press within 1000 ms of the first sets selectedIndex to 0; a k press
1200 ms after a lone g press behaves exactly as a normal prev step,
unaffected by the stale arm. -/
theorem c5_first_last_double_g (st : FullState) (a : String) (t1 t2 : Int)
    (hname : ¬(a = "INPUT" ∨ a = "TEXTAREA"))
    (hne : st.searchResults ≠ [])
    (hunarmed : st.lastGKeyPress + 1000 ≤ t1)
    (hwithin : t2 < t1 + 1000) :
    ((handleKeyDown a t1 ⟨"G", true, false, false⟩ st).1).selectedIndex =
      (st.searchResults.length : Int) - 1 ∧
    (handleKeyDown a t1 ⟨"g", false, false, false⟩ st).1 =
      { st with lastGKeyPress := t1 } ∧
    ((handleKeyDown a t2 ⟨"g", false, false, false⟩
        ((handleKeyDown a t1 ⟨"g", false, false, false⟩ st).1)).1).selectedIndex =
      0 ∧
    ((handleKeyDown a (t1 + 1200) ⟨"k", false, false, false⟩
        ((handleKeyDown a t1 ⟨"g", false, false, false⟩ st).1)).1).selectedIndex =
      clamp (st.selectedIndex - 1) 0 ((st.searchResults.length : Int) - 1) := by
  have hg1 := handleKeyDown_g_arm a t1 st hname (by omega)
  refine ⟨?_, ?_, ?_, ?_⟩
  · rw [handleKeyDown_G_shift a t1 st hname]
  · rw [hg1]
  · rw [hg1]
    rw [handleKeyDown_g_jump a t2 { st with lastGKeyPress := t1 } hname
      (show t1 + 1000 > t2 by omega)]
  · rw [hg1]
    rw [handleKeyDown_k_eval a (t1 + 1200) ⟨"k", false, false, false⟩
      { st with lastGKeyPress := t1 } hname (Or.inl rfl)]

theorem c5_witness :
    ((handleKeyDown "BODY" 5000 ⟨"G", true, false, false⟩
        ⟨[el 0, el 1, el 2], 1, 0, []⟩).1).selectedIndex = 2 ∧
    (handleKeyDown "BODY" 5000 ⟨"g", false, false, false⟩
        ⟨[el 0, el 1, el 2], 1, 0, []⟩).1 = ⟨[el 0, el 1, el 2], 1, 5000, []⟩ ∧
    ((handleKeyDown "BODY" 5500 ⟨"g", false, false, false⟩
        ((handleKeyDown "BODY" 5000 ⟨"g", false, false, false⟩
          ⟨[el 0, el 1, el 2], 1, 0, []⟩).1)).1).selectedIndex = 0 ∧
    ((handleKeyDown "BODY" 6200 ⟨"k", false, false, false⟩
        ((handleKeyDown "BODY" 5000 ⟨"g", false, false, false⟩
          ⟨[el 0, el 1, el 2], 1, 0, []⟩).1)).1).selectedIndex = 0 :=
  c5_first_last_double_g ⟨[el 0, el 1, el 2], 1, 0, []⟩ "BODY" 5000 5500
    (by decide) (by decide) (by decide) (by decide)

/-- C6: on activation (Enter/Space) where the selected entry exists but
contains no anchor-link descendant, both variants' handlers perform no
action: no navigation and the state, selectedIndex included, is
unchanged. -/
theorem c6_activation_without_link (st : FullState) (a : String) (t : Int)
    (ev : KeyEvent) (element : Elem)
    (hk : ev.key = " " ∨ ev.key = "Enter")
    (hel : getAt st.searchResults st.selectedIndex = some element)
    (hlink : element.link = none) :
    handleKeyDown a t ev st = (st, .noNav) ∧
    handleKeyDownWrap a ev st = (st, .noNav) := by
  constructor
  · unfold handleKeyDown
    split
    · rfl
    · rcases hk with hk | hk <;> rw [hk] <;> simp [hel, hlink]
  · unfold handleKeyDownWrap
    split
    · rfl
    · rcases hk with hk | hk <;> rw [hk] <;> simp [hel, hlink]

theorem c6_witness :
    handleKeyDown "BODY" 0 ⟨"Enter", false, false, false⟩
      ⟨[⟨0, "DIV", true, none⟩], 0, 0, []⟩ =
      (⟨[⟨0, "DIV", true, none⟩], 0, 0, []⟩, .noNav) ∧
    handleKeyDownWrap "BODY" ⟨"Enter", false, false, false⟩
      ⟨[⟨0, "DIV", true, none⟩], 0, 0, []⟩ =
      (⟨[⟨0, "DIV", true, none⟩], 0, 0, []⟩, .noNav) :=
  c6_activation_without_link ⟨[⟨0, "DIV", true, none⟩], 0, 0, []⟩ "BODY" 0
    ⟨"Enter", false, false, false⟩ ⟨0, "DIV", true, none⟩
    (Or.inr rfl) (by decide) rfl

theorem findHighestParent_eq (cur : Elem) (l : List Elem) :
    findHighestParent cur l =
      (findLangElem cur l).getD (l.getLastD cur) := by
  induction l generalizing cur with
  | nil => by_cases h : cur.hasLang <;> simp [findHighestParent, findLangElem, h]
  | cons p rest ih =>
    by_cases h : cur.hasLang
    · simp [findHighestParent, findLangElem, h]
    · simp only [findHighestParent, findLangElem, h, Bool.false_eq_true,
        if_false, List.getLastD_cons]
      exact ih p

/-- C7 counterexample: a heading (tag H3, no lang attribute) whose only
ancestor is a lang-less DIV root.  The claim predicts the heading is
skipped (no lang-attributed ancestor exists), but the extractor's walk
breaks at the root and, the root's tag being DIV, pushes the root into the
results. -/
theorem c7_counterexample :
    extractSearchResults [⟨⟨0, "H3", false, none⟩, [⟨1, "DIV", false, none⟩]⟩] ≠
      extractSearchResultsSpec
        [⟨⟨0, "H3", false, none⟩, [⟨1, "DIV", false, none⟩]⟩] ∧
    extractSearchResults [⟨⟨0, "H3", false, none⟩, [⟨1, "DIV", false, none⟩]⟩] =
      [⟨1, "DIV", false, none⟩] ∧
    extractSearchResultsSpec
      [⟨⟨0, "H3", false, none⟩, [⟨1, "DIV", false, none⟩]⟩] = [] := by
  refine ⟨?_, ?_, ?_⟩ <;> decide

/-- C7 amended: the extractor returns, in heading (document) order and
independently per heading, the nearest chain element (the heading itself
or an ancestor) carrying a language attribute, kept only when its tag is
DIV; when no chain element carries a language attribute the walk stops at
the root, which is likewise kept only when its tag is DIV (and skipped
otherwise), without aborting the extraction of the remaining headings. -/
theorem c7_extractor_amended (headings : List Heading) :
    extractSearchResults headings = extractSearchResultsAmended headings := by
  simp only [extractSearchResults, extractSearchResultsAmended,
    findHighestParent_eq]

/-- C8: whenever the selected entry exists, a completed highlight run
leaves exactly the selected entry marked (so at most one element carries
the marker); when the marker list is already exactly the target the run is
a no-op, otherwise every marked element is stripped and the target is
marked, in both variants. -/
theorem c8_highlight_at_most_one (results marked : List Elem) (idx : Int)
    (element : Elem)
    (hel : getAt results idx = some element) :
    ((highlightSelected results idx marked).1 = [element] ∧
      (highlightSelectedWrap results idx marked).1 = [element]) ∧
    (marked = [element] →
      highlightSelected results idx marked = (marked, false) ∧
      highlightSelectedWrap results idx marked = (marked, false)) ∧
    (marked ≠ [element] →
      highlightSelected results idx marked = ([element], true) ∧
      highlightSelectedWrap results idx marked = ([element], true)) := by
  have hlen : ¬ results.length = 0 := by
    intro h
    rw [List.length_eq_zero] at h
    subst h
    rw [getAt_nil] at hel
    exact Option.noConfusion hel
  have heq : highlightSelected results idx marked =
      highlightSelectedWrap results idx marked := by
    unfold highlightSelected highlightSelectedWrap
    rw [if_neg hlen]
  have hwrap : highlightSelectedWrap results idx marked =
      if marked = [element] then (marked, false) else ([element], true) := by
    unfold highlightSelectedWrap
    simp only [hel]
    by_cases hm : marked = [element]
    · rw [if_pos ((marked_cond_iff marked element).mpr hm), if_pos hm]
    · rw [if_neg (fun hc => hm ((marked_cond_iff marked element).mp hc)),
        if_neg hm]
  have h1 : (highlightSelectedWrap results idx marked).1 = [element] := by
    rw [hwrap]
    by_cases hm : marked = [element]
    · rw [if_pos hm, hm]
    · rw [if_neg hm]
  refine ⟨⟨by rw [heq]; exact h1, h1⟩, fun hm => ?_, fun hm => ?_⟩
  · exact ⟨by rw [heq, hwrap, if_pos hm], by rw [hwrap, if_pos hm]⟩
  · exact ⟨by rw [heq, hwrap, if_neg hm], by rw [hwrap, if_neg hm]⟩

theorem c8_witness :
    (getAt [el 0, el 1] 1 = some (el 1)) ∧
    (highlightSelected [el 0, el 1] 1 [el 0]).1 = [el 1] ∧
    highlightSelectedWrap [el 0, el 1] 1 [el 0] = ([el 1], true) :=
  have h := c8_highlight_at_most_one [el 0, el 1] [el 0] 1 (el 1) (by decide)
  ⟨by decide, h.1.1, (h.2.2 (by decide)).2⟩

end GoogleShortcuts
